import Mathlib

/-!
Verification of the i2c bus access layer (`i2c.go`).

The Go code is shallowly embedded as follows.  The operating-system file
behind a connection (`I2C.rc`) is modelled by a script: a list of
`Outcome`s, one consumed per underlying `Read`/`Write`/`Close` call, so a
mock device is a concrete script.  Each underlying call also records a
`Transfer` in a trace, which lets theorems speak about exactly which
transfers an operation issued and in which order.  Go's `uint16`
arithmetic is `Nat` with explicit `% 65536`; Go's `int16` is `Int`
together with its two's-complement 16-bit pattern (`pat16` / `val16`),
wrapping addition, truncating left shift and arithmetic right shift.
-/

namespace I2CModel

/-- Result the operating system produces for one file read/write/close
call, as scripted by a mock device: success with a reported byte count
and (for reads) the bytes the device places in the buffer, or an OS
error carrying a numeric error code. -/
inductive Outcome where
  | ok (count : Nat) (data : List Nat)
  | fail (e : Nat)
  deriving DecidableEq

/-- One operation issued on the open device file. -/
inductive Transfer where
  | write (buf : List Nat)
  | read (n : Nat)
  | close
  | bindAddr (addr : Nat)
  deriving DecidableEq

/-- Whether a transfer is a plain data transfer (write, read or close),
as opposed to an address re-bind directive. -/
def Transfer.isData : Transfer → Bool
  | .bindAddr _ => false
  | _ => true

/-- State of a connection `I2C{rc *os.File}` together with the mock OS:
the descriptor held in `rc`, the address the descriptor was bound to at
construction time, the remaining scripted outcomes, and the trace of
transfers issued so far. -/
structure Bus where
  fd : Nat
  boundAddr : Nat
  script : List Outcome
  trace : List Transfer

/-- Model of `v.rc.Write(buf)`: consumes the next scripted outcome and
records the transfer.  An exhausted script fails with error code 0. -/
def rcWrite (st : Bus) (buf : List Nat) : Except Nat Nat × Bus :=
  match st.script with
  | [] => (Except.error 0, { st with trace := st.trace ++ [Transfer.write buf] })
  | Outcome.ok c _ :: rest =>
      (Except.ok c, { st with script := rest, trace := st.trace ++ [Transfer.write buf] })
  | Outcome.fail e :: rest =>
      (Except.error e, { st with script := rest, trace := st.trace ++ [Transfer.write buf] })

/-- Model of `v.rc.Read(buf)` on a fresh zero-initialised buffer of
length `n`: the device deposits its scripted bytes (truncated to `n`)
at the front of the buffer, the remaining positions keep their zero
initialisation, and the scripted count is reported back unchanged. -/
def rcRead (st : Bus) (n : Nat) : Except Nat (Nat × List Nat) × Bus :=
  match st.script with
  | [] => (Except.error 0, { st with trace := st.trace ++ [Transfer.read n] })
  | Outcome.ok c d :: rest =>
      let delivered := (d.map (fun b => b % 256)).take n
      let buf := delivered ++ List.replicate (n - delivered.length) 0
      (Except.ok (c, buf), { st with script := rest, trace := st.trace ++ [Transfer.read n] })
  | Outcome.fail e :: rest =>
      (Except.error e, { st with script := rest, trace := st.trace ++ [Transfer.read n] })

/-- Model of `v.rc.Close()`. -/
def rcClose (st : Bus) : Except Nat Unit × Bus :=
  match st.script with
  | [] => (Except.error 0, { st with trace := st.trace ++ [Transfer.close] })
  | Outcome.ok _ _ :: rest =>
      (Except.ok (), { st with script := rest, trace := st.trace ++ [Transfer.close] })
  | Outcome.fail e :: rest =>
      (Except.error e, { st with script := rest, trace := st.trace ++ [Transfer.close] })

/-- `func (v *I2C) write(buf []byte) (int, error)`: `return v.rc.Write(buf)`. -/
def write (st : Bus) (buf : List Nat) : Except Nat Nat × Bus := rcWrite st buf

/-- `WriteBytes` sends `buf` to the remote i2c device: `return v.write(buf)`. -/
def WriteBytes (st : Bus) (buf : List Nat) : Except Nat Nat × Bus := write st buf

/-- `func (v *I2C) read(buf []byte) (int, error)`: `return v.rc.Read(buf)`,
called by every register operation on a fresh `make([]byte, n)` buffer. -/
def read (st : Bus) (n : Nat) : Except Nat (Nat × List Nat) × Bus := rcRead st n

/-- `ReadBytes` fills a buffer from the remote i2c device:
`n, err := v.read(buf); return n, err`. -/
def ReadBytes (st : Bus) (n : Nat) : Except Nat (Nat × List Nat) × Bus := read st n

/-- `Close` closes the connection: `return v.rc.Close()`. -/
def Close (st : Bus) : Except Nat Unit × Bus := rcClose st

/-- Two's-complement 16-bit pattern of a Go `int16` value, as produced by
the Go conversion `uint16(value)`. -/
def pat16 (x : Int) : Nat := (x % 65536).toNat

/-- Go conversion of a 16-bit pattern to `int16`: two's complement. -/
def val16 (p : Nat) : Int :=
  if p % 65536 < 32768 then ((p % 65536 : Nat) : Int)
  else ((p % 65536 : Nat) : Int) - 65536

/-- Go `int16` left shift by 8 (`x << 8`), truncating to 16 bits. -/
def i16shl8 (x : Int) : Int := val16 (pat16 x * 256)

/-- Go `int16` addition (`x + y`), wrapping on overflow. -/
def i16add (x y : Int) : Int := val16 (pat16 x + pat16 y)

/-- Go `int16` arithmetic right shift by 8 (`x >> 8`): floor division,
the sign bit is replicated into the high byte. -/
def i16shr8 (x : Int) : Int := Int.fdiv x 256

/-- Go `x & 0xFF` on an `int16`: the low byte, always non-negative. -/
def i16lowByte (x : Int) : Int := ((pat16 x % 256 : Nat) : Int)

/-- `ReadRegBytes` reads `n` bytes starting from register `reg`:
single-byte index write, then buffer read; either failure is returned
unchanged and aborts the operation. -/
def ReadRegBytes (st : Bus) (reg n : Nat) : Except Nat (List Nat × Nat) × Bus :=
  match WriteBytes st [reg] with
  | (Except.error e, st1) => (Except.error e, st1)
  | (Except.ok _, st1) =>
    match ReadBytes st1 n with
    | (Except.error e, st2) => (Except.error e, st2)
    | (Except.ok (c, buf), st2) => (Except.ok (buf, c), st2)

/-- `ReadRegU8` reads one byte from register `reg`; the count returned by
the underlying read is discarded (`_, err = v.ReadBytes(buf)`) and the
result is `buf[0]`. -/
def ReadRegU8 (st : Bus) (reg : Nat) : Except Nat Nat × Bus :=
  match WriteBytes st [reg] with
  | (Except.error e, st1) => (Except.error e, st1)
  | (Except.ok _, st1) =>
    match ReadBytes st1 1 with
    | (Except.error e, st2) => (Except.error e, st2)
    | (Except.ok (_, buf), st2) => (Except.ok (buf.getD 0 0), st2)

/-- `WriteRegU8` writes one byte: a single combined transfer
`buf := []byte{reg, value}`. -/
def WriteRegU8 (st : Bus) (reg value : Nat) : Except Nat Unit × Bus :=
  match WriteBytes st [reg, value] with
  | (Except.error e, st1) => (Except.error e, st1)
  | (Except.ok _, st1) => (Except.ok (), st1)

/-- `ReadRegU16BE`: index write, 2-byte read, then
`w := uint16(buf[0])<<8 + uint16(buf[1])`; the count returned by the
read is discarded. -/
def ReadRegU16BE (st : Bus) (reg : Nat) : Except Nat Nat × Bus :=
  match WriteBytes st [reg] with
  | (Except.error e, st1) => (Except.error e, st1)
  | (Except.ok _, st1) =>
    match ReadBytes st1 2 with
    | (Except.error e, st2) => (Except.error e, st2)
    | (Except.ok (_, buf), st2) =>
      (Except.ok ((buf.getD 0 0 * 256 + buf.getD 1 0) % 65536), st2)

/-- `ReadRegU16LE`: big-endian read, then `w = (w&0xFF)<<8 + w>>8` on the
`uint16` result (logical shift). -/
def ReadRegU16LE (st : Bus) (reg : Nat) : Except Nat Nat × Bus :=
  match ReadRegU16BE st reg with
  | (Except.error e, st1) => (Except.error e, st1)
  | (Except.ok w, st1) => (Except.ok ((w % 256 * 256 + w / 256) % 65536), st1)

/-- `ReadRegS16BE`: index write, 2-byte read, then
`w := int16(buf[0])<<8 + int16(buf[1])` (byte-to-`int16` conversions are
zero-extending, the shift truncates, the addition wraps). -/
def ReadRegS16BE (st : Bus) (reg : Nat) : Except Nat Int × Bus :=
  match WriteBytes st [reg] with
  | (Except.error e, st1) => (Except.error e, st1)
  | (Except.ok _, st1) =>
    match ReadBytes st1 2 with
    | (Except.error e, st2) => (Except.error e, st2)
    | (Except.ok (_, buf), st2) =>
      (Except.ok (i16add (i16shl8 ((buf.getD 0 0 : Nat) : Int)) ((buf.getD 1 0 : Nat) : Int)), st2)

/-- `ReadRegS16LE`: signed big-endian read, then
`w = (w&0xFF)<<8 + w>>8` on the `int16` result — so the right shift is
the arithmetic one. -/
def ReadRegS16LE (st : Bus) (reg : Nat) : Except Nat Int × Bus :=
  match ReadRegS16BE st reg with
  | (Except.error e, st1) => (Except.error e, st1)
  | (Except.ok w, st1) => (Except.ok (i16add (i16shl8 (i16lowByte w)) (i16shr8 w)), st1)

/-- `WriteRegU16BE`: a single combined transfer
`buf := []byte{reg, byte((value & 0xFF00) >> 8), byte(value & 0xFF)}`. -/
def WriteRegU16BE (st : Bus) (reg value : Nat) : Except Nat Unit × Bus :=
  match WriteBytes st [reg, value % 65536 / 256, value % 256] with
  | (Except.error e, st1) => (Except.error e, st1)
  | (Except.ok _, st1) => (Except.ok (), st1)

/-- `WriteRegU16LE`: `w := (value*0xFF00)>>8 + value<<8` — with the
multiplication exactly as in the source — then delegate to
`WriteRegU16BE`. -/
def WriteRegU16LE (st : Bus) (reg value : Nat) : Except Nat Unit × Bus :=
  WriteRegU16BE st reg ((value * 65280 % 65536 / 256 + value * 256) % 65536)

/-- `WriteRegS16BE`: a single combined transfer
`buf := []byte{reg, byte((uint16(value) & 0xFF00) >> 8), byte(value & 0xFF)}`. -/
def WriteRegS16BE (st : Bus) (reg : Nat) (value : Int) : Except Nat Unit × Bus :=
  match WriteBytes st [reg, pat16 value / 256, pat16 value % 256] with
  | (Except.error e, st1) => (Except.error e, st1)
  | (Except.ok _, st1) => (Except.ok (), st1)

/-- `WriteRegS16LE`: `w := int16((uint16(value)*0xFF00)>>8) + value<<8` —
with the multiplication exactly as in the source — then delegate to
`WriteRegS16BE`. -/
def WriteRegS16LE (st : Bus) (reg : Nat) (value : Int) : Except Nat Unit × Bus :=
  WriteRegS16BE st reg (i16add (val16 (pat16 value * 65280 % 65536 / 256)) (i16shl8 value))

/-- System calls `NewI2C` issues against the OS. -/
inductive SysEv where
  | openFile (bus : Nat)
  | ioctlBind (fd addr : Nat)
  | closeFile (fd : Nat)
  deriving DecidableEq

/-- Outcomes the OS gives to `NewI2C`: the result of `os.OpenFile` on the
device node (a fresh descriptor or an error) and the result of the
`I2C_SLAVE` ioctl. -/
structure OpenEnv where
  openResult : Except Nat Nat
  bindResult : Except Nat Unit

/-- OS-side resource state: descriptors currently open, and the system
calls issued so far. -/
structure OsRun where
  openFds : List Nat
  events : List SysEv

/-- Model of `NewI2C(addr, bus)`: open the device node (on success the
descriptor becomes held), then issue the address-bind ioctl.  On an
ioctl failure the source returns the bind error without closing the
file, so the descriptor stays in `openFds`.  On success the returned
connection holds the descriptor. -/
def NewI2C (env : OpenEnv) (addr bus : Nat) (run : OsRun) : Except Nat Nat × OsRun :=
  match env.openResult with
  | Except.error e =>
      (Except.error e, { run with events := run.events ++ [SysEv.openFile bus] })
  | Except.ok fd =>
      let run1 : OsRun :=
        { openFds := run.openFds ++ [fd], events := run.events ++ [SysEv.openFile bus] }
      match env.bindResult with
      | Except.error e =>
          (Except.error e, { run1 with events := run1.events ++ [SysEv.ioctlBind fd addr] })
      | Except.ok _ =>
          (Except.ok fd, { run1 with events := run1.events ++ [SysEv.ioctlBind fd addr] })

/-- Stated from the specification, for comparison with the code's
little-endian helpers: swapping a 16-bit word produces
`((w & 0xFF) << 8) | (w >> 8)`, i.e. the two bytes exchange places while
the bit pattern inside each byte is preserved. -/
def swap16 (w : Nat) : Nat := w % 256 * 256 + w % 65536 / 256

lemma pat16_lt (x : Int) : pat16 x < 65536 := by
  unfold pat16; omega

lemma pat16_ofNat (n : Nat) : pat16 ((n : Nat) : Int) = n % 65536 := by
  unfold pat16; omega

lemma pat16_val16 (q : Nat) : pat16 (val16 q) = q % 65536 := by
  unfold pat16 val16; split <;> omega

lemma val16_pat16 (x : Int) (h1 : -32768 ≤ x) (h2 : x < 32768) : val16 (pat16 x) = x := by
  unfold val16 pat16; split <;> omega

/-- The word the signed big-endian read computes from a 2-byte buffer is
the two's-complement interpretation of the concatenated pattern. -/
lemma word_be (b0 b1 : Nat) (hb0 : b0 < 256) (hb1 : b1 < 256) :
    i16add (i16shl8 ((b0 : Nat) : Int)) ((b1 : Nat) : Int) = val16 (b0 * 256 + b1) := by
  unfold i16add i16shl8
  rw [pat16_ofNat, pat16_ofNat, pat16_val16]
  have e1 : b0 % 65536 = b0 := by omega
  have e2 : b1 % 65536 = b1 := by omega
  have e3 : b0 % 65536 * 256 % 65536 = b0 * 256 := by omega
  rw [e2, e3]

/-- C1.  Counterexample to the claim on the source: `WriteRegU16LE`
computes `(value*0xFF00)>>8 + value<<8` (a multiplication, not a mask),
so at `value = 1` the word handed to the big-endian writer is `0x01FF`
and the emitted transfer is `[0x10, 0x01, 0xFF]`, whereas delegating
`swap16 1 = 0x0100` would emit `[0x10, 0x01, 0x00]`. -/
theorem c1_writeRegU16LE_mul_bug :
    (WriteRegU16LE ⟨3, 72, [Outcome.ok 3 []], []⟩ 16 1).2.trace
        = [Transfer.write [16, 1, 255]] ∧
    swap16 1 = 256 ∧
    (WriteRegU16BE ⟨3, 72, [Outcome.ok 3 []], []⟩ 16 (swap16 1)).2.trace
        = [Transfer.write [16, 1, 0]] ∧
    Transfer.write [16, 1, 255] ≠ Transfer.write [16, 1, 0] := by
  exact ⟨rfl, rfl, rfl, by decide⟩

/-- C2.  Counterexample on the source: `WriteRegS16LE(0x10, -1)` goes
through `w := int16((uint16(value)*0xFF00)>>8) + value<<8`, which at
`value = -1` yields `-255` (`0xFF01`), so the transfer emitted is
`[0x10, 0xFF, 0x01]`; the little-endian two's-complement encoding of
`-1` demanded by the claim is low byte `0xFF` then high byte `0xFF`. -/
theorem c2_writeRegS16LE_minus_one_payload :
    (WriteRegS16LE ⟨3, 72, [Outcome.ok 3 []], []⟩ 16 (-1)).2.trace
        = [Transfer.write [16, 255, 1]] ∧
    pat16 (-1) % 256 = 255 ∧ pat16 (-1) / 256 = 255 ∧
    Transfer.write [16, 255, 1] ≠ Transfer.write [16, 255, 255] := by
  exact ⟨rfl, rfl, rfl, by decide⟩

/-- C3.  Counterexample on the source: for the device response
`[0x80, 0x00]` the claim demands the `int16` with pattern
`(0x00 << 8) | 0x80 = 0x0080`, i.e. `128`; but `ReadRegS16LE` swaps with
`w>>8` on an `int16`, an arithmetic shift that sign-extends, and returns
`-128` (pattern `0xFF80`). -/
theorem c3_readRegS16LE_sign_extension :
    (ReadRegS16LE ⟨3, 72, [Outcome.ok 1 [], Outcome.ok 2 [128, 0]], []⟩ 16).1
        = Except.ok (-128) ∧
    val16 (0 * 256 + 128) = 128 ∧
    (-128 : Int) ≠ 128 := by
  exact ⟨rfl, rfl, by decide⟩

/-- C4.  Evidence of the resource leak: with the device node opening
successfully as descriptor 3 and the address-bind ioctl failing with
error 22, `NewI2C` returns the bind error while descriptor 3 is still
held, and the system-call record shows open and bind but no close. -/
theorem c4_newI2C_bind_failure_leaks_file :
    (NewI2C ⟨Except.ok 3, Except.error 22⟩ 72 1 ⟨[], []⟩).1 = Except.error 22 ∧
    (NewI2C ⟨Except.ok 3, Except.error 22⟩ 72 1 ⟨[], []⟩).2.openFds = [3] ∧
    (NewI2C ⟨Except.ok 3, Except.error 22⟩ 72 1 ⟨[], []⟩).2.events
        = [SysEv.openFile 1, SysEv.ioctlBind 3 72] := by
  exact ⟨rfl, rfl, rfl⟩

/-- C5.  Two-phase register operations short-circuit: when the scripted
outcome for the index write is an error `e`, each operation returns
exactly `e` having issued only the single index-write transfer and
consumed exactly one outcome; when the index write succeeds and the
value read fails with `e`, the operation returns exactly `e` having
issued exactly the index write followed by one read — no retries. -/
theorem c5_register_ops_error_propagation (reg n e c f a : Nat) (d : List Nat)
    (rest : List Outcome) (t : List Transfer) :
    (ReadRegBytes ⟨f, a, Outcome.fail e :: rest, t⟩ reg n
        = (Except.error e, ⟨f, a, rest, t ++ [Transfer.write [reg]]⟩)) ∧
    (ReadRegU8 ⟨f, a, Outcome.fail e :: rest, t⟩ reg
        = (Except.error e, ⟨f, a, rest, t ++ [Transfer.write [reg]]⟩)) ∧
    (ReadRegU16BE ⟨f, a, Outcome.fail e :: rest, t⟩ reg
        = (Except.error e, ⟨f, a, rest, t ++ [Transfer.write [reg]]⟩)) ∧
    (ReadRegS16BE ⟨f, a, Outcome.fail e :: rest, t⟩ reg
        = (Except.error e, ⟨f, a, rest, t ++ [Transfer.write [reg]]⟩)) ∧
    (ReadRegBytes ⟨f, a, Outcome.ok c d :: Outcome.fail e :: rest, t⟩ reg n
        = (Except.error e,
           ⟨f, a, rest, (t ++ [Transfer.write [reg]]) ++ [Transfer.read n]⟩)) ∧
    (ReadRegU8 ⟨f, a, Outcome.ok c d :: Outcome.fail e :: rest, t⟩ reg
        = (Except.error e,
           ⟨f, a, rest, (t ++ [Transfer.write [reg]]) ++ [Transfer.read 1]⟩)) ∧
    (ReadRegU16BE ⟨f, a, Outcome.ok c d :: Outcome.fail e :: rest, t⟩ reg
        = (Except.error e,
           ⟨f, a, rest, (t ++ [Transfer.write [reg]]) ++ [Transfer.read 2]⟩)) ∧
    (ReadRegS16BE ⟨f, a, Outcome.ok c d :: Outcome.fail e :: rest, t⟩ reg
        = (Except.error e,
           ⟨f, a, rest, (t ++ [Transfer.write [reg]]) ++ [Transfer.read 2]⟩)) :=
  ⟨rfl, rfl, rfl, rfl, rfl, rfl, rfl, rfl⟩

/-- C6.  Reading a device whose 2-byte response is the big-endian
encoding `[hi(v), lo(v)]` of an unsigned 16-bit `v` through
`ReadRegU16LE` yields the byte-swapped word `swap16 v`,
i.e. `lo(v)*256 + hi(v)`. -/
theorem c6_readRegU16LE_swaps_big_endian (v reg f a c1 c2 : Nat) (t : List Transfer)
    (hv : v < 65536) :
    (ReadRegU16LE ⟨f, a, [Outcome.ok c1 [], Outcome.ok c2 [v / 256, v % 256]], t⟩ reg).1
        = Except.ok (swap16 v) := by
  have h : (ReadRegU16LE ⟨f, a, [Outcome.ok c1 [], Outcome.ok c2 [v / 256, v % 256]], t⟩ reg).1
      = Except.ok (((v / 256 % 256 * 256 + v % 256 % 256) % 65536 % 256 * 256
          + (v / 256 % 256 * 256 + v % 256 % 256) % 65536 / 256) % 65536) := rfl
  rw [h]
  unfold swap16
  congr 1
  have e1 : v / 256 % 256 = v / 256 := by omega
  have e2 : v % 256 % 256 = v % 256 := by omega
  have e3 : v / 256 * 256 + v % 256 = v := by omega
  rw [e1, e2, e3]
  omega

/-- Witness for C6: the §8 scenario, a device holding big-endian
`0x1234` read through the little-endian reader yields `0x3412`. -/
theorem c6_readRegU16LE_swaps_big_endian_witness :
    0x1234 < 65536 ∧
    (ReadRegU16LE ⟨3, 72, [Outcome.ok 1 [], Outcome.ok 2 [0x1234 / 256, 0x1234 % 256]], []⟩ 0).1
        = Except.ok (swap16 0x1234) :=
  ⟨by decide, c6_readRegU16LE_swaps_big_endian 0x1234 0 3 72 1 2 [] (by decide)⟩

/-- C7.  Round trip: `WriteRegS16BE` emits the register index followed by
the high and low pattern bytes of the signed value, and `ReadRegS16BE`
against a loopback device answering exactly those two payload bytes
returns the value unchanged, sign included. -/
theorem c7_s16be_write_read_roundtrip (v : Int) (reg f a c0 c1 c2 : Nat)
    (h1 : -32768 ≤ v) (h2 : v < 32768) :
    (WriteRegS16BE ⟨f, a, [Outcome.ok c0 []], []⟩ reg v).2.trace
        = [Transfer.write [reg, pat16 v / 256, pat16 v % 256]] ∧
    (ReadRegS16BE ⟨f, a, [Outcome.ok c1 [],
        Outcome.ok c2 [pat16 v / 256, pat16 v % 256]], []⟩ reg).1
        = Except.ok v := by
  constructor
  · rfl
  · have h : (ReadRegS16BE ⟨f, a, [Outcome.ok c1 [],
          Outcome.ok c2 [pat16 v / 256, pat16 v % 256]], []⟩ reg).1
        = Except.ok (i16add (i16shl8 ((pat16 v / 256 % 256 : Nat) : Int))
            ((pat16 v % 256 % 256 : Nat) : Int)) := rfl
    rw [h]
    have hp := pat16_lt v
    have e1 : pat16 v / 256 % 256 = pat16 v / 256 := by omega
    have e2 : pat16 v % 256 % 256 = pat16 v % 256 := by omega
    have e3 : pat16 v / 256 * 256 + pat16 v % 256 = pat16 v := by omega
    rw [e1, e2, word_be _ _ (by omega) (by omega), e3]
    exact congrArg Except.ok (val16_pat16 v h1 h2)

/-- Witness for C7: the round trip at `v = -1` with register `0x10`. -/
theorem c7_s16be_write_read_roundtrip_witness :
    (-32768 : Int) ≤ -1 ∧ (-1 : Int) < 32768 ∧
    ((WriteRegS16BE ⟨3, 72, [Outcome.ok 3 []], []⟩ 16 (-1)).2.trace
        = [Transfer.write [16, pat16 (-1) / 256, pat16 (-1) % 256]] ∧
     (ReadRegS16BE ⟨3, 72, [Outcome.ok 1 [],
         Outcome.ok 2 [pat16 (-1) / 256, pat16 (-1) % 256]], []⟩ 16).1
        = Except.ok (-1)) :=
  ⟨by decide, by decide, c7_s16be_write_read_roundtrip (-1) 16 3 72 3 1 2 (by decide) (by decide)⟩

/-- C8.  A call to `ReadRegBytes reg n` on a responsive device issues
exactly one write transfer of the single byte `reg` followed by exactly
one read transfer requesting `n` bytes, in that order, consuming exactly
two scripted outcomes and issuing no other transfer. -/
theorem c8_readRegBytes_transfer_pattern (reg n f a c1 c2 : Nat) (d1 d2 : List Nat)
    (rest : List Outcome) (t : List Transfer) :
    (ReadRegBytes ⟨f, a, Outcome.ok c1 d1 :: Outcome.ok c2 d2 :: rest, t⟩ reg n).2.trace
        = t ++ [Transfer.write [reg], Transfer.read n] ∧
    (ReadRegBytes ⟨f, a, Outcome.ok c1 d1 :: Outcome.ok c2 d2 :: rest, t⟩ reg n).2.script
        = rest := by
  constructor
  · have h : (ReadRegBytes ⟨f, a, Outcome.ok c1 d1 :: Outcome.ok c2 d2 :: rest, t⟩ reg n).2.trace
        = (t ++ [Transfer.write [reg]]) ++ [Transfer.read n] := rfl
    rw [h, List.append_assoc]
    rfl
  · rfl

/-- C10.  The typed register reads discard the count reported by the
underlying read (the scripted counts `c1`, `c2` are arbitrary and never
influence the result): a read that deposits no bytes still succeeds with
value 0, and a 2-byte read that deposits only one byte decodes the
missing position as the buffer's zero initialisation. -/
theorem c10_typed_reads_ignore_count (reg b f a c1 c2 : Nat) (t : List Transfer) :
    (ReadRegU8 ⟨f, a, [Outcome.ok c1 [], Outcome.ok c2 []], t⟩ reg).1 = Except.ok 0 ∧
    (ReadRegU16BE ⟨f, a, [Outcome.ok c1 [], Outcome.ok c2 [b]], t⟩ reg).1
        = Except.ok (b % 256 * 256) ∧
    (ReadRegS16BE ⟨f, a, [Outcome.ok c1 [], Outcome.ok c2 [b]], t⟩ reg).1
        = Except.ok (val16 (b % 256 * 256)) := by
  refine ⟨rfl, ?_, ?_⟩
  · have h : (ReadRegU16BE ⟨f, a, [Outcome.ok c1 [], Outcome.ok c2 [b]], t⟩ reg).1
        = Except.ok ((b % 256 * 256 + 0) % 65536) := rfl
    rw [h]
    congr 1
    omega
  · have h : (ReadRegS16BE ⟨f, a, [Outcome.ok c1 [], Outcome.ok c2 [b]], t⟩ reg).1
        = Except.ok (i16add (i16shl8 ((b % 256 : Nat) : Int)) ((0 : Nat) : Int)) := rfl
    rw [h, word_be _ _ (by omega) (by omega),
      show b % 256 * 256 + 0 = b % 256 * 256 from by omega]

/-- The operation left the connection's descriptor and bound address
unchanged and extended the trace only with data transfers — it neither
re-issued the address-bind directive nor replaced the file handle. -/
def BindStable (st st' : Bus) : Prop :=
  st'.fd = st.fd ∧ st'.boundAddr = st.boundAddr ∧
  ∃ tail, st'.trace = st.trace ++ tail ∧ tail.all Transfer.isData = true

lemma bindStable_refl (st : Bus) : BindStable st st :=
  ⟨rfl, rfl, [], by simp, rfl⟩

lemma bindStable_trans {s1 s2 s3 : Bus} (h1 : BindStable s1 s2) (h2 : BindStable s2 s3) :
    BindStable s1 s3 := by
  obtain ⟨e1, a1, l1, t1, d1⟩ := h1
  obtain ⟨e2, a2, l2, t2, d2⟩ := h2
  exact ⟨e2.trans e1, a2.trans a1, l1 ++ l2,
    by rw [t2, t1, List.append_assoc], by simp [List.all_append, d1, d2]⟩

lemma bindStable_rcWrite (st : Bus) (buf : List Nat) : BindStable st (rcWrite st buf).2 := by
  rcases st with ⟨f, a, s, t⟩
  rcases s with _ | ⟨o, rest⟩
  · exact ⟨rfl, rfl, [Transfer.write buf], rfl, rfl⟩
  · rcases o with ⟨c, d⟩ | e <;> exact ⟨rfl, rfl, [Transfer.write buf], rfl, rfl⟩

lemma bindStable_rcRead (st : Bus) (n : Nat) : BindStable st (rcRead st n).2 := by
  rcases st with ⟨f, a, s, t⟩
  rcases s with _ | ⟨o, rest⟩
  · exact ⟨rfl, rfl, [Transfer.read n], rfl, rfl⟩
  · rcases o with ⟨c, d⟩ | e <;> exact ⟨rfl, rfl, [Transfer.read n], rfl, rfl⟩

lemma bindStable_rcClose (st : Bus) : BindStable st (rcClose st).2 := by
  rcases st with ⟨f, a, s, t⟩
  rcases s with _ | ⟨o, rest⟩
  · exact ⟨rfl, rfl, [Transfer.close], rfl, rfl⟩
  · rcases o with ⟨c, d⟩ | e <;> exact ⟨rfl, rfl, [Transfer.close], rfl, rfl⟩

lemma bindStable_WriteBytes (st : Bus) (buf : List Nat) : BindStable st (WriteBytes st buf).2 :=
  bindStable_rcWrite st buf

lemma bindStable_ReadBytes (st : Bus) (n : Nat) : BindStable st (ReadBytes st n).2 :=
  bindStable_rcRead st n

lemma bindStable_Close (st : Bus) : BindStable st (Close st).2 :=
  bindStable_rcClose st

lemma bindStable_ReadRegBytes (st : Bus) (reg n : Nat) :
    BindStable st (ReadRegBytes st reg n).2 := by
  unfold ReadRegBytes
  split
  next e st1 heq =>
    have h0 := bindStable_WriteBytes st [reg]
    rw [heq] at h0
    exact h0
  next k st1 heq =>
    have h1 : BindStable st st1 := by
      have h0 := bindStable_WriteBytes st [reg]
      rw [heq] at h0
      exact h0
    split
    next e st2 heq2 =>
      have h2 := bindStable_ReadBytes st1 n
      rw [heq2] at h2
      exact bindStable_trans h1 h2
    next c buf st2 heq2 =>
      have h2 := bindStable_ReadBytes st1 n
      rw [heq2] at h2
      exact bindStable_trans h1 h2

lemma bindStable_ReadRegU8 (st : Bus) (reg : Nat) :
    BindStable st (ReadRegU8 st reg).2 := by
  unfold ReadRegU8
  split
  next e st1 heq =>
    have h0 := bindStable_WriteBytes st [reg]
    rw [heq] at h0
    exact h0
  next k st1 heq =>
    have h1 : BindStable st st1 := by
      have h0 := bindStable_WriteBytes st [reg]
      rw [heq] at h0
      exact h0
    split
    next e st2 heq2 =>
      have h2 := bindStable_ReadBytes st1 1
      rw [heq2] at h2
      exact bindStable_trans h1 h2
    next c buf st2 heq2 =>
      have h2 := bindStable_ReadBytes st1 1
      rw [heq2] at h2
      exact bindStable_trans h1 h2

lemma bindStable_WriteRegU8 (st : Bus) (reg value : Nat) :
    BindStable st (WriteRegU8 st reg value).2 := by
  unfold WriteRegU8
  split
  next e st1 heq =>
    have h0 := bindStable_WriteBytes st [reg, value]
    rw [heq] at h0
    exact h0
  next k st1 heq =>
    have h0 := bindStable_WriteBytes st [reg, value]
    rw [heq] at h0
    exact h0

lemma bindStable_ReadRegU16BE (st : Bus) (reg : Nat) :
    BindStable st (ReadRegU16BE st reg).2 := by
  unfold ReadRegU16BE
  split
  next e st1 heq =>
    have h0 := bindStable_WriteBytes st [reg]
    rw [heq] at h0
    exact h0
  next k st1 heq =>
    have h1 : BindStable st st1 := by
      have h0 := bindStable_WriteBytes st [reg]
      rw [heq] at h0
      exact h0
    split
    next e st2 heq2 =>
      have h2 := bindStable_ReadBytes st1 2
      rw [heq2] at h2
      exact bindStable_trans h1 h2
    next c buf st2 heq2 =>
      have h2 := bindStable_ReadBytes st1 2
      rw [heq2] at h2
      exact bindStable_trans h1 h2

lemma bindStable_ReadRegS16BE (st : Bus) (reg : Nat) :
    BindStable st (ReadRegS16BE st reg).2 := by
  unfold ReadRegS16BE
  split
  next e st1 heq =>
    have h0 := bindStable_WriteBytes st [reg]
    rw [heq] at h0
    exact h0
  next k st1 heq =>
    have h1 : BindStable st st1 := by
      have h0 := bindStable_WriteBytes st [reg]
      rw [heq] at h0
      exact h0
    split
    next e st2 heq2 =>
      have h2 := bindStable_ReadBytes st1 2
      rw [heq2] at h2
      exact bindStable_trans h1 h2
    next c buf st2 heq2 =>
      have h2 := bindStable_ReadBytes st1 2
      rw [heq2] at h2
      exact bindStable_trans h1 h2

lemma readRegU16LE_bus (st : Bus) (reg : Nat) :
    (ReadRegU16LE st reg).2 = (ReadRegU16BE st reg).2 := by
  unfold ReadRegU16LE
  split
  next e st1 heq => exact (congrArg Prod.snd heq).symm
  next w st1 heq => exact (congrArg Prod.snd heq).symm

lemma readRegS16LE_bus (st : Bus) (reg : Nat) :
    (ReadRegS16LE st reg).2 = (ReadRegS16BE st reg).2 := by
  unfold ReadRegS16LE
  split
  next e st1 heq => exact (congrArg Prod.snd heq).symm
  next w st1 heq => exact (congrArg Prod.snd heq).symm

lemma bindStable_WriteRegU16BE (st : Bus) (reg value : Nat) :
    BindStable st (WriteRegU16BE st reg value).2 := by
  unfold WriteRegU16BE
  split
  next e st1 heq =>
    have h0 := bindStable_WriteBytes st [reg, value % 65536 / 256, value % 256]
    rw [heq] at h0
    exact h0
  next k st1 heq =>
    have h0 := bindStable_WriteBytes st [reg, value % 65536 / 256, value % 256]
    rw [heq] at h0
    exact h0

lemma bindStable_WriteRegS16BE (st : Bus) (reg : Nat) (value : Int) :
    BindStable st (WriteRegS16BE st reg value).2 := by
  unfold WriteRegS16BE
  split
  next e st1 heq =>
    have h0 := bindStable_WriteBytes st [reg, pat16 value / 256, pat16 value % 256]
    rw [heq] at h0
    exact h0
  next k st1 heq =>
    have h0 := bindStable_WriteBytes st [reg, pat16 value / 256, pat16 value % 256]
    rw [heq] at h0
    exact h0

/-- C9.  Once a connection exists, every operation of the layer —
byte-level, register-level and close — leaves it bound to the same
descriptor and the same address it was constructed with, and the
transfers it adds to the trace are data transfers only: no operation
re-issues the address-bind directive or replaces the file handle. -/
theorem c9_ops_preserve_binding (st : Bus) (buf : List Nat) (reg n value : Nat) (sv : Int) :
    BindStable st (WriteBytes st buf).2 ∧
    BindStable st (ReadBytes st n).2 ∧
    BindStable st (Close st).2 ∧
    BindStable st (ReadRegBytes st reg n).2 ∧
    BindStable st (ReadRegU8 st reg).2 ∧
    BindStable st (WriteRegU8 st reg value).2 ∧
    BindStable st (ReadRegU16BE st reg).2 ∧
    BindStable st (ReadRegU16LE st reg).2 ∧
    BindStable st (ReadRegS16BE st reg).2 ∧
    BindStable st (ReadRegS16LE st reg).2 ∧
    BindStable st (WriteRegU16BE st reg value).2 ∧
    BindStable st (WriteRegU16LE st reg value).2 ∧
    BindStable st (WriteRegS16BE st reg sv).2 ∧
    BindStable st (WriteRegS16LE st reg sv).2 := by
  refine ⟨bindStable_WriteBytes st buf, bindStable_ReadBytes st n, bindStable_Close st,
    bindStable_ReadRegBytes st reg n, bindStable_ReadRegU8 st reg,
    bindStable_WriteRegU8 st reg value, bindStable_ReadRegU16BE st reg, ?_,
    bindStable_ReadRegS16BE st reg, ?_, bindStable_WriteRegU16BE st reg value,
    bindStable_WriteRegU16BE st reg ((value * 65280 % 65536 / 256 + value * 256) % 65536),
    bindStable_WriteRegS16BE st reg sv,
    bindStable_WriteRegS16BE st reg
      (i16add (val16 (pat16 sv * 65280 % 65536 / 256)) (i16shl8 sv))⟩
  · rw [readRegU16LE_bus]
    exact bindStable_ReadRegU16BE st reg
  · rw [readRegS16LE_bus]
    exact bindStable_ReadRegS16BE st reg

end I2CModel
